import Mathlib

/-!
Verification of the AlphaSentinel core (src/App.jsx): the seeded synthetic
series generator, the technical-indicator engine (SMA, RSI-14, Bollinger/
z-score), the factor scorer and the volatility-target position sizer.

JavaScript numbers are embedded as exact arithmetic: the indicator engine
works on rational prices (all of its arithmetic is field arithmetic), while
the generator and the sizer, which use Math.sin and Math.sqrt, are embedded
over the reals.  A JS `x || c` fallback on a non-negative number is embedded
as `if x = 0 then c else x`.  A JS division whose denominator may be zero
(which would produce Infinity/NaN, a non-finite value) is additionally
modelled by an Option-valued checked division where `none` marks the
non-finite outcome.
-/

/- ## Data model -/

/-- A raw price point as produced by the generator or the data pipeline:
the App.jsx objects `{date, price, volume}` with rational price. -/
structure PricePoint where
  date : ℤ
  price : ℚ
  volume : ℤ
deriving DecidableEq

instance : Inhabited PricePoint := ⟨⟨0, 0, 0⟩⟩

/-- A generator point: same shape as `PricePoint` but with a real-valued
price, because `generateStockData` drives prices through `Math.sin`. -/
structure GenPoint where
  date : ℤ
  price : ℝ
  volume : ℤ

instance : Inhabited GenPoint := ⟨⟨0, 0, 0⟩⟩

/-- One element of the list returned by `calculateIndicators`: the input
point spread together with the indicator fields (`{...day, sma50, sma200,
rsi, bbUpper, bbLower, zScore}`).  Absent (JS `null`) values are `none`. -/
structure IndicatorPoint where
  date : ℤ
  price : ℚ
  volume : ℤ
  sma50 : Option ℚ
  sma200 : Option ℚ
  rsi : ℚ
  bbUpper : Option ℝ
  bbLower : Option ℝ
  zScore : ℝ

/- ## Seeded generator (App.jsx lines 29-68) -/

/-- Source `seededRandom`: fractional part of `Math.sin(seed) * 10000`
(the `seed++` post-increment only touches the local parameter). -/
noncomputable def seededRandom (seed : ℝ) : ℝ :=
  let x := Real.sin seed * 10000
  x - ⌊x⌋

/-- Ticker seed: `ticker.split('').reduce((acc, c) => acc + c.charCodeAt(0), 0)`. -/
def tickerSeed (ticker : String) : ℕ :=
  ticker.toList.foldl (fun acc c => acc + c.toNat) 0

/-- The body of the `for` loop of `generateStockData`, indexed by remaining
iterations (`fuel`), current index `i` and current `price`.  Each step:
`volatility = price*0.02`, `change = (rand(seed+i)-0.5)*volatility + trend`,
`price += change`, `price = max(price, 5)`, push `{date, price, volume}`
with `date = now - (400 - i)` (days) and
`volume = floor(rand(seed+i+1000)*1000000)`. -/
noncomputable def genPoints (seed trend : ℝ) (now : ℤ) :
    ℕ → ℕ → ℝ → List GenPoint
  | 0, _, _ => []
  | fuel + 1, i, price =>
    let volatility := price * 0.02
    let change := (seededRandom (seed + i) - 0.5) * volatility + trend
    let price2 := max (price + change) 5
    { date := now - (400 - (i : ℤ)),
      price := price2,
      volume := ⌊seededRandom (seed + i + 1000) * 1000000⌋ }
      :: genPoints seed trend now fuel (i + 1) price2

/-- Source `generateStockData(ticker)`: seed from the ticker, initial price
`100 + rand(seed)*50`, drift `(rand(seed+1) - 0.5)*0.2`, then 400 loop
iterations.  The ambient `new Date()` is made explicit as the `now`
parameter (the invocation day as an integer day number). -/
noncomputable def generateStockData (now : ℤ) (ticker : String) : List GenPoint :=
  let seed : ℝ := tickerSeed ticker
  let price0 := 100 + seededRandom seed * 50
  let trend := (seededRandom (seed + 1) - 0.5) * 0.2
  genPoints seed trend now 400 0 price0

/- ## Indicator engine (App.jsx lines 70-136) -/

/-- JS `data.slice(a, b)` for `0 ≤ a ≤ b` within bounds. -/
def jsSlice (l : List PricePoint) (a b : ℕ) : List PricePoint :=
  (l.drop a).take (b - a)

/-- Price of `data[j]` (always used in-bounds). -/
def priceAt (data : List PricePoint) (j : ℕ) : ℚ :=
  (data.getD j default).price

/-- The JS `x || 1` fallback on a non-negative rational: 1 when `x` is 0. -/
def rsiDivisor (x : ℚ) : ℚ :=
  if x = 0 then 1 else x

/-- The JS `stdDev || 1` fallback on a non-negative real. -/
noncomputable def stdDevDivisor (x : ℝ) : ℝ :=
  if x = 0 then 1 else x

/-- SMA over `data.slice(i - n + 1, i + 1)` divided by `n`
(App.jsx lines 80-91, used with n = 50 and n = 200). -/
def smaAt (data : List PricePoint) (n i : ℕ) : ℚ :=
  ((jsSlice data (i + 1 - n) (i + 1)).map (fun d => d.price)).sum / n

/-- The RSI formula `100 - 100/(1 + (g/14)/((l/14) || 1))` shared by the
bootstrap (line 103) and rolling (line 113) branches. -/
def rsiFromSums (g l : ℚ) : ℚ :=
  100 - 100 / (1 + (g / 14) / (rsiDivisor (l / 14)))

/-- The rolling-window gain/loss loop of the RSI branch for `index > 14`
(lines 107-112): over `slice = data.slice(i-13, i+1)`, for consecutive
pairs, add positive deltas to the gain and subtract non-positive deltas
from the loss. -/
def rollGainLoss (data : List PricePoint) (i : ℕ) : ℚ × ℚ :=
  let slice := jsSlice data (i - 13) (i + 1)
  (slice.zip slice.tail).foldl
    (fun gl pq =>
      let d := pq.2.price - pq.1.price
      if 0 < d then (gl.1 + d, gl.2) else (gl.1, gl.2 - d))
    (0, 0)

/-- Rolling RSI at `index > 14` (line 113). -/
def rollingRsi (data : List PricePoint) (i : ℕ) : ℚ :=
  rsiFromSums (rollGainLoss data i).1 (rollGainLoss data i).2

/-- Bollinger mean over `data.slice(i - 19, i + 1)` (line 123). -/
def bollMean (data : List PricePoint) (i : ℕ) : ℚ :=
  ((jsSlice data (i - 19) (i + 1)).map (fun d => d.price)).sum / 20

/-- Bollinger population variance over the same window (inside line 124). -/
def bollVar (data : List PricePoint) (i : ℕ) : ℚ :=
  ((jsSlice data (i - 19) (i + 1)).map (fun d => (d.price - bollMean data i) ^ 2)).sum / 20

/-- Source `stdDev = Math.sqrt(variance)` (line 124). -/
noncomputable def bollStdDev (data : List PricePoint) (i : ℕ) : ℝ :=
  Real.sqrt (bollVar data i)

/-- Source `if (change > 0) gains += change` (line 98). -/
def bootGain (gains change : ℚ) : ℚ :=
  if 0 < change then gains + change else gains

/-- Source `else losses -= change` (line 99), keeping the loss as a magnitude. -/
def bootLoss (losses change : ℚ) : ℚ :=
  if 0 < change then losses else losses - change

/-- The RSI block of the map body (App.jsx lines 93-115): produces the RSI
value for index `i` together with the updated `gains`/`losses` state.
RSI defaults to 50; for `0 < index <= 14` the day-over-day change is
accumulated and only at index 14 is the bootstrap RSI computed; for
`index > 14` the rolling-window RSI is used and the state is untouched.
`data[i]` is embedded as `getD` with a default (all uses are in bounds). -/
def rsiAtIndex (data : List PricePoint) (i : ℕ) (gains losses : ℚ) :
    ℚ × ℚ × ℚ :=
  if i = 0 then (50, gains, losses)
  else
    let change := priceAt data i - priceAt data (i - 1)
    if i ≤ 14 then
      (if i = 14 then rsiFromSums (bootGain gains change) (bootLoss losses change)
       else 50,
       bootGain gains change, bootLoss losses change)
    else
      (rollingRsi data i, gains, losses)

/-- The Bollinger block of the map body (App.jsx lines 117-128): the pair
of bands and the z-score, computed only when `index >= 20`; below that the
bands are `null` and the z-score keeps its 0 default. -/
noncomputable def bollFields (data : List PricePoint) (i : ℕ) :
    Option ℝ × Option ℝ × ℝ :=
  if 20 ≤ i then
    (some ((bollMean data i : ℝ) + 2 * bollStdDev data i),
     some ((bollMean data i : ℝ) - 2 * bollStdDev data i),
     ((priceAt data i - bollMean data i : ℚ) : ℝ) /
       stdDevDivisor (bollStdDev data i))
  else (none, none, 0)

/-- The `data.map((day, index) => ...)` body of `calculateIndicators`,
written as a recursion over the index with the closure-captured mutable
`gains`/`losses` state threaded explicitly; `fuel` counts the remaining
points.  Mirrors App.jsx lines 78-131: sma50/sma200 when the 50/200 window
is full (else `null`), the RSI block and the Bollinger block. -/
noncomputable def indicatorsGo (data : List PricePoint) :
    ℕ → ℕ → ℚ → ℚ → List IndicatorPoint
  | 0, _, _, _ => []
  | fuel + 1, i, gains, losses =>
    if i < data.length then
      let day := data.getD i default
      let rgl := rsiAtIndex data i gains losses
      { date := day.date, price := day.price, volume := day.volume,
        sma50 := if 49 ≤ i then some (smaAt data 50 i) else none,
        sma200 := if 199 ≤ i then some (smaAt data 200 i) else none,
        rsi := rgl.1,
        bbUpper := (bollFields data i).1,
        bbLower := (bollFields data i).2.1,
        zScore := (bollFields data i).2.2 }
        :: indicatorsGo data fuel (i + 1) rgl.2.1 rgl.2.2
    else []

/-- Source `dataWithIndicators = data.map(...)` with initial `gains = losses = 0`. -/
noncomputable def dataWithIndicators (data : List PricePoint) : List IndicatorPoint :=
  indicatorsGo data data.length 0 0 0

/-- Source `calculateIndicators`: the annotated series truncated to the last 200
points, `dataWithIndicators.slice(-200)` (line 135). -/
noncomputable def calculateIndicators (data : List PricePoint) : List IndicatorPoint :=
  (dataWithIndicators data).drop ((dataWithIndicators data).length - 200)

/- ## Factor scorer (App.jsx lines 296-348, 611) -/

/-- Source `trendScore = current.price > current.sma200 ? 1 : -1` (line 298).
A JS comparison against `null` (the absent-SMA marker) coerces `null`
to 0, which the embedding makes explicit with `Option.getD 0`. -/
def trendScore (current : IndicatorPoint) : ℤ :=
  if current.sma200.getD 0 < current.price then 1 else -1

/-- The Alpha Verdict label (line 611). -/
inductive Verdict where
  | BUY
  | SELL
  | NEUTRAL
deriving DecidableEq

/-- Source `totalScore > 0.2 ? "BUY" : totalScore < -0.2 ? "SELL" : "NEUTRAL"`. -/
def verdict (totalScore : ℚ) : Verdict :=
  if 0.2 < totalScore then .BUY
  else if totalScore < -0.2 then .SELL
  else .NEUTRAL

/- ## Position sizer (App.jsx lines 339-344) -/

/-- Source `volatility = (current.price - prev.price) / prev.price` (line 340). -/
noncomputable def dailyReturn (c p : ℝ) : ℝ :=
  (c - p) / p

/-- Totality check of the line-340 division: in JS a zero previous price
makes it non-finite (Infinity or NaN); `none` marks that outcome. -/
noncomputable def dailyReturnChecked (c p : ℝ) : Option ℝ :=
  if p = 0 then none else some ((c - p) / p)

/-- Source `annualizedVol = Math.abs(volatility * Math.sqrt(252))` (line 341). -/
noncomputable def annualizedVol (c p : ℝ) : ℝ :=
  |dailyReturn c p * Real.sqrt 252|

/-- The JS `annualizedVol || 0.01` fallback (line 343). -/
noncomputable def volDivisor (av : ℝ) : ℝ :=
  if av = 0 then 0.01 else av

/-- Source `(targetVol / (annualizedVol || 0.01)) * Math.abs(totalScore)` with
`targetVol = 0.15` (line 343). -/
noncomputable def rawSize (c p ts : ℝ) : ℝ :=
  0.15 / volDivisor (annualizedVol c p) * |ts|

/-- The claimed sizing formula, modelled from the spec words
`rawSize = (0.15 / max(annualizedVol, 0.01)) * |totalScore|`; to be
compared against the source-derived `rawSize`. -/
noncomputable def rawSizeSpec (c p ts : ℝ) : ℝ :=
  0.15 / max (annualizedVol c p) 0.01 * |ts|

/-- Source `positionSize = Math.min(positionSize, 2.5) * 10` (line 344). -/
noncomputable def positionSize (c p ts : ℝ) : ℝ :=
  min (rawSize c p ts) 2.5 * 10

/- ## Helper lemmas -/

lemma sqrt252_pos : (0:ℝ) < Real.sqrt 252 :=
  Real.sqrt_pos.mpr (by norm_num)

lemma sqrt252_lt_sixteen : Real.sqrt 252 < 16 :=
  (Real.sqrt_lt' (by norm_num)).mpr (by norm_num)

lemma dailyReturn_c2 : dailyReturn 10001 10000 = 1 / 10000 := by
  unfold dailyReturn; norm_num

lemma annualizedVol_c2 : annualizedVol 10001 10000 = Real.sqrt 252 / 10000 := by
  unfold annualizedVol
  rw [dailyReturn_c2, abs_of_nonneg (by positivity)]
  ring

lemma annualizedVol_c2_ne : annualizedVol 10001 10000 ≠ 0 := by
  rw [annualizedVol_c2]; positivity

lemma annualizedVol_c2_lt : annualizedVol 10001 10000 < 0.01 := by
  rw [annualizedVol_c2]
  have h := sqrt252_lt_sixteen
  norm_num
  linarith

/- ## Claim theorems: scorer and sizer -/

/-- C2 (counterexample): at current price 10001, previous price 10000 and
totalScore 1 the annualized volatility is strictly between 0 and 0.01, and
the code's raw size (divisor floored only at exactly zero) differs from the
claimed `0.15 / max(annualizedVol, 0.01)` formula. -/
theorem rawSize_not_max_floor :
    rawSize 10001 10000 1 ≠ rawSizeSpec 10001 10000 1 := by
  have hne := annualizedVol_c2_ne
  have hlt := annualizedVol_c2_lt
  have hpos : 0 < annualizedVol 10001 10000 :=
    lt_of_le_of_ne (abs_nonneg _) (Ne.symm hne)
  have hcode : rawSize 10001 10000 1 = 0.15 / annualizedVol 10001 10000 := by
    unfold rawSize volDivisor
    rw [if_neg hne]
    simp
  have hspec : rawSizeSpec 10001 10000 1 = 15 := by
    unfold rawSizeSpec
    rw [max_eq_right hlt.le]
    norm_num
  rw [hcode, hspec]
  have hgt : (15:ℝ) < 0.15 / annualizedVol 10001 10000 := by
    rw [lt_div_iff₀ hpos]
    nlinarith
  exact ne_of_gt hgt

/-- C2 (amended): the divisor of the raw position size is the annualized
volatility itself whenever it is nonzero (even below 0.01), and 0.01 only
when it is exactly zero. -/
theorem rawSize_divisor_characterization : ∀ c p ts : ℝ,
    (annualizedVol c p ≠ 0 → rawSize c p ts = 0.15 / annualizedVol c p * |ts|) ∧
    (annualizedVol c p = 0 → rawSize c p ts = 0.15 / 0.01 * |ts|) := by
  intro c p ts
  constructor <;> intro h <;> unfold rawSize volDivisor
  · rw [if_neg h]
  · rw [if_pos h]

/-- C2 (witness): the nonzero-divisor case realized at prices 10001/10000. -/
theorem rawSize_divisor_characterization_witness :
    annualizedVol 10001 10000 ≠ 0 ∧
    rawSize 10001 10000 1 = 0.15 / annualizedVol 10001 10000 * |(1:ℝ)| :=
  ⟨annualizedVol_c2_ne,
   (rawSize_divisor_characterization 10001 10000 1).1 annualizedVol_c2_ne⟩

/-- C3 (counterexample): the daily-return division of the sizer performs no
substitution on a zero previous price; its result is non-finite (`none`)
rather than a value computed with a safe constant in the denominator. -/
theorem dailyReturn_unguarded_at_zero : dailyReturnChecked 5 0 = none := by
  unfold dailyReturnChecked
  simp

/-- C3 (amended): the standard-deviation, average-loss and
annualized-volatility divisors are guarded so they are strictly positive on
their non-negative domains, but the previous-price division carries no
guard: it is non-finite exactly when the previous price is zero, and only
the data-model invariant of positive prices keeps it finite. -/
theorem division_guard_characterization :
    (∀ x : ℚ, 0 ≤ x → 0 < rsiDivisor x) ∧
    (∀ x : ℝ, 0 ≤ x → 0 < stdDevDivisor x) ∧
    (∀ x : ℝ, 0 ≤ x → 0 < volDivisor x) ∧
    (∀ c p : ℝ, dailyReturnChecked c p = none ↔ p = 0) ∧
    (∀ c p : ℝ, p ≠ 0 → dailyReturnChecked c p = some (dailyReturn c p)) := by
  refine ⟨?_, ?_, ?_, ?_, ?_⟩
  · intro x hx; unfold rsiDivisor; split_ifs with h
    · norm_num
    · exact lt_of_le_of_ne hx (Ne.symm h)
  · intro x hx; unfold stdDevDivisor; split_ifs with h
    · norm_num
    · exact lt_of_le_of_ne hx (Ne.symm h)
  · intro x hx; unfold volDivisor; split_ifs with h
    · norm_num
    · exact lt_of_le_of_ne hx (Ne.symm h)
  · intro c p; unfold dailyReturnChecked; split_ifs with h <;> simp [h]
  · intro c p h; unfold dailyReturnChecked dailyReturn; rw [if_neg h]

/-- C3 (witness): the guards evaluated at concrete points. -/
theorem division_guard_characterization_witness :
    0 < rsiDivisor 1 ∧ 0 < stdDevDivisor 1 ∧ 0 < volDivisor 1 ∧
    dailyReturnChecked 1 0 = none ∧ dailyReturnChecked 3 2 = some (dailyReturn 3 2) :=
  ⟨division_guard_characterization.1 1 (by norm_num),
   division_guard_characterization.2.1 1 (by norm_num),
   division_guard_characterization.2.2.1 1 (by norm_num),
   (division_guard_characterization.2.2.2.1 1 0).mpr rfl,
   division_guard_characterization.2.2.2.2 3 2 (by norm_num)⟩

/-- C6: the verdict is BUY exactly above 0.2, SELL exactly below -0.2 and
NEUTRAL exactly on the closed band between them, with the three boundary
probes 0.21, 0.20 and -0.21. -/
theorem verdict_thresholds : ∀ ts : ℚ,
    (verdict ts = .BUY ↔ 0.2 < ts) ∧
    (verdict ts = .SELL ↔ ts < -0.2) ∧
    (verdict ts = .NEUTRAL ↔ (-0.2 ≤ ts ∧ ts ≤ 0.2)) ∧
    verdict 0.21 = .BUY ∧ verdict 0.2 = .NEUTRAL ∧ verdict (-0.21) = .SELL := by
  have hBUY : ∀ ts : ℚ, verdict ts = .BUY ↔ 0.2 < ts := by
    intro ts
    unfold verdict
    split_ifs with h1 h2 <;> simp [h1]
  have hSELL : ∀ ts : ℚ, verdict ts = .SELL ↔ ts < -0.2 := by
    intro ts
    unfold verdict
    split_ifs with h1 h2
    · simp only [reduceCtorEq, false_iff, not_lt]
      linarith
    · simp [h2]
    · simp [h2]
  have hNEUT : ∀ ts : ℚ, verdict ts = .NEUTRAL ↔ (-0.2 ≤ ts ∧ ts ≤ 0.2) := by
    intro ts
    unfold verdict
    split_ifs with h1 h2
    · simp only [reduceCtorEq, false_iff, not_and, not_le]
      intro
      linarith
    · simp only [reduceCtorEq, false_iff, not_and, not_le]
      intro
      linarith
    · push_neg at h1 h2
      simp only [true_iff]
      exact ⟨h2, h1⟩
  intro ts
  exact ⟨hBUY ts, hSELL ts, hNEUT ts,
    (hBUY 0.21).mpr (by norm_num),
    (hNEUT 0.2).mpr ⟨by norm_num, le_refl _⟩,
    (hSELL (-0.21)).mpr (by norm_num)⟩

/-- C7: for any current/previous prices with positive previous price and
any totalScore, the scaled position size lies in the interval [0, 25]. -/
theorem positionSize_bounds : ∀ c p ts : ℝ, 0 < p →
    0 ≤ positionSize c p ts ∧ positionSize c p ts ≤ 25 := by
  intro c p ts _
  have hav : 0 ≤ annualizedVol c p := abs_nonneg _
  have hd : 0 < volDivisor (annualizedVol c p) := by
    unfold volDivisor; split_ifs with h
    · norm_num
    · exact lt_of_le_of_ne hav (Ne.symm h)
  have hraw : 0 ≤ rawSize c p ts := by
    unfold rawSize
    exact mul_nonneg (div_nonneg (by norm_num) hd.le) (abs_nonneg _)
  unfold positionSize
  constructor
  · have hmin : 0 ≤ min (rawSize c p ts) 2.5 := le_min hraw (by norm_num)
    linarith
  · have hmin : min (rawSize c p ts) 2.5 ≤ 2.5 := min_le_right _ _
    linarith

/-- C7 (witness): the bound realized at current 1, previous 1, score 0. -/
theorem positionSize_bounds_witness :
    0 ≤ positionSize 1 1 0 ∧ positionSize 1 1 0 ≤ 25 :=
  positionSize_bounds 1 1 0 (by norm_num)

/-- C8 (counterexample): a current point with price 110 and an absent
sma200 gets trend score +1, not the claimed -1 — the JS comparison coerces
the null sma200 to 0, so any positive price wins it. -/
theorem trendScore_absent_sma200 :
    trendScore ⟨0, 110, 0, none, none, 50, none, none, 0⟩ ≠ -1 := by decide

/-- C8 (amended): the trend score is +1 exactly when the price exceeds the
sma200 with an absent sma200 read as 0 (so an absent sma200 and a positive
price give +1), and -1 otherwise; the two concrete spec probes with
sma200 = 100 behave as claimed. -/
theorem trendScore_characterization :
    (∀ cur : IndicatorPoint,
      (trendScore cur = 1 ↔ cur.sma200.getD 0 < cur.price) ∧
      (trendScore cur = -1 ↔ ¬ cur.sma200.getD 0 < cur.price) ∧
      (cur.sma200 = none → 0 < cur.price → trendScore cur = 1)) ∧
    trendScore ⟨0, 110, 0, none, some 100, 50, none, none, 0⟩ = 1 ∧
    trendScore ⟨0, 90, 0, none, some 100, 50, none, none, 0⟩ = -1 := by
  refine ⟨fun cur => ⟨?_, ?_, ?_⟩, by decide, by decide⟩
  · unfold trendScore; split_ifs with h <;> simp [h]
  · unfold trendScore; split_ifs with h <;> simp [h]
  · intro hn hp
    unfold trendScore
    rw [hn]
    simpa using hp

/-- C8 (witness): the absent-sma200 policy realized at price 110. -/
theorem trendScore_characterization_witness :
    trendScore ⟨0, 110, 0, none, none, 50, none, none, 0⟩ = 1 :=
  (trendScore_characterization.1 _).2.2 rfl (by norm_num)

/- ## Generator lemmas -/

lemma genPoints_length (seed trend : ℝ) (now : ℤ) :
    ∀ fuel i price, (genPoints seed trend now fuel i price).length = fuel := by
  intro fuel
  induction fuel with
  | zero => intro i price; rfl
  | succ f ih => intro i price; simp [genPoints, ih]

lemma genPoints_price_ge (seed trend : ℝ) (now : ℤ) :
    ∀ fuel i price, ∀ q ∈ genPoints seed trend now fuel i price, (5:ℝ) ≤ q.price := by
  intro fuel
  induction fuel with
  | zero => intro i price q hq; simp [genPoints] at hq
  | succ f ih =>
    intro i price q hq
    simp only [genPoints, List.mem_cons] at hq
    rcases hq with h | h
    · subst h
      exact le_max_right _ _
    · exact ih _ _ q h

lemma genPoints_head_date (seed trend : ℝ) (now : ℤ) :
    ∀ fuel i price, fuel ≠ 0 →
      ((genPoints seed trend now fuel i price).head?.map (fun p => p.date))
        = some (now - (400 - (i:ℤ))) := by
  intro fuel i price h
  cases fuel with
  | zero => exact absurd rfl h
  | succ f => rfl

lemma genPoints_mem_head_date (seed trend : ℝ) (now : ℤ) :
    ∀ fuel j price b, b ∈ (genPoints seed trend now fuel j price).head? →
      b.date = now - (400 - (j:ℤ)) := by
  intro fuel j price b hb
  cases fuel with
  | zero => simp [genPoints] at hb
  | succ f =>
    simp only [genPoints, List.head?_cons, Option.mem_def, Option.some.injEq] at hb
    rw [← hb]

lemma genPoints_chain (seed trend : ℝ) (now : ℤ) :
    ∀ fuel i price, List.Chain' (fun a b : GenPoint => a.date < b.date)
      (genPoints seed trend now fuel i price) := by
  intro fuel
  induction fuel with
  | zero => intro i price; simp [genPoints]
  | succ f ih =>
    intro i price
    rw [genPoints]
    rw [List.chain'_cons']
    constructor
    · intro b hb
      have hd := genPoints_mem_head_date seed trend now f (i+1) _ b hb
      rw [hd]
      push_cast
      omega
    · exact ih _ _

lemma genPoints_pv_eq (seed trend : ℝ) (n1 n2 : ℤ) :
    ∀ fuel i price,
      (genPoints seed trend n1 fuel i price).map (fun p => (p.price, p.volume)) =
      (genPoints seed trend n2 fuel i price).map (fun p => (p.price, p.volume)) := by
  intro fuel
  induction fuel with
  | zero => intro i price; rfl
  | succ f ih =>
    intro i price
    simp only [genPoints, List.map_cons, ih]

/- ## Claim theorems: generator -/

/-- C9: for every ticker and invocation day, the synthetic series has
exactly 400 points, strictly ascending dates, and every price at least 5. -/
theorem generateStockData_shape : ∀ (ticker : String) (now : ℤ),
    (generateStockData now ticker).length = 400 ∧
    List.Chain' (fun a b : GenPoint => a.date < b.date) (generateStockData now ticker) ∧
    ∀ p ∈ generateStockData now ticker, (5:ℝ) ≤ p.price := by
  intro ticker now
  unfold generateStockData
  exact ⟨genPoints_length _ _ _ 400 0 _, genPoints_chain _ _ _ 400 0 _,
         genPoints_price_ge _ _ _ 400 0 _⟩

/-- C9 (witness): the price floor realized on the first point of the
series for ticker A generated at day 0. -/
theorem generateStockData_shape_witness :
    (5:ℝ) ≤ ((generateStockData 0 "A").headI).price := by
  have h := generateStockData_shape "A" 0
  have hmem : (generateStockData 0 "A").headI ∈ generateStockData 0 "A" := by
    rcases hl : generateStockData 0 "A" with _ | ⟨a, l⟩
    · rw [hl] at h
      simp at h
    · simp
  exact h.2.2 _ hmem

/-- C4 (counterexample): the same ticker generated on two different
invocation days yields different series — the date fields shift with the
ambient clock, so the output is not byte-identical across runs. -/
theorem generateStockData_dates_depend_on_now :
    generateStockData 0 "A" ≠ generateStockData 1 "A" := by
  intro h
  have h1 : ((generateStockData 0 "A").head?.map (fun p => p.date))
      = some (0 - (400 - ((0:ℕ):ℤ))) := by
    unfold generateStockData
    exact genPoints_head_date _ _ _ 400 0 _ (by norm_num)
  have h2 : ((generateStockData 1 "A").head?.map (fun p => p.date))
      = some (1 - (400 - ((0:ℕ):ℤ))) := by
    unfold generateStockData
    exact genPoints_head_date _ _ _ 400 0 _ (by norm_num)
  rw [h, h2] at h1
  simp only [Option.some.injEq] at h1
  omega

/-- C4 (amended): the price and volume sequences are a deterministic
function of the ticker alone — identical across invocation days; only the
date labels depend on the ambient day. -/
theorem generateStockData_price_volume_deterministic :
    ∀ (ticker : String) (n1 n2 : ℤ),
      (generateStockData n1 ticker).map (fun p => (p.price, p.volume)) =
      (generateStockData n2 ticker).map (fun p => (p.price, p.volume)) := by
  intro t n1 n2
  unfold generateStockData
  exact genPoints_pv_eq _ _ _ _ 400 0 _

/- ## Indicator engine lemmas -/

lemma indicatorsGo_succ (data : List PricePoint) (fuel i : ℕ) (g l : ℚ)
    (h : i < data.length) :
    indicatorsGo data (fuel + 1) i g l =
      { date := (data.getD i default).date,
        price := (data.getD i default).price,
        volume := (data.getD i default).volume,
        sma50 := if 49 ≤ i then some (smaAt data 50 i) else none,
        sma200 := if 199 ≤ i then some (smaAt data 200 i) else none,
        rsi := (rsiAtIndex data i g l).1,
        bbUpper := (bollFields data i).1,
        bbLower := (bollFields data i).2.1,
        zScore := (bollFields data i).2.2 }
        :: indicatorsGo data fuel (i + 1) (rsiAtIndex data i g l).2.1
             (rsiAtIndex data i g l).2.2 := by
  rw [indicatorsGo]
  rw [if_pos h]

lemma indicatorsGo_stop (data : List PricePoint) (fuel i : ℕ) (g l : ℚ)
    (h : ¬ i < data.length) :
    indicatorsGo data (fuel + 1) i g l = [] := by
  rw [indicatorsGo]
  rw [if_neg h]

lemma indicatorsGo_length (data : List PricePoint) :
    ∀ fuel i g l, i + fuel ≤ data.length →
      (indicatorsGo data fuel i g l).length = fuel := by
  intro fuel
  induction fuel with
  | zero => intro i g l _; rfl
  | succ f ih =>
    intro i g l hle
    have hi : i < data.length := by omega
    rw [indicatorsGo_succ data f i g l hi]
    simp only [List.length_cons]
    rw [ih (i + 1) _ _ (by omega)]

lemma dataWithIndicators_length (data : List PricePoint) :
    (dataWithIndicators data).length = data.length := by
  unfold dataWithIndicators
  exact indicatorsGo_length data data.length 0 0 0 (by omega)

lemma indicatorsGo_getElem?_bb (data : List PricePoint) :
    ∀ j fuel i g l, j < fuel → i + j < data.length →
      ((indicatorsGo data fuel i g l)[j]?).map
          (fun pt => (pt.bbUpper, pt.bbLower, pt.zScore))
        = some (bollFields data (i + j)) := by
  intro j
  induction j with
  | zero =>
    intro fuel i g l hj hlen
    cases fuel with
    | zero => omega
    | succ f =>
      rw [indicatorsGo_succ data f i g l (by omega)]
      simp
  | succ j ih =>
    intro fuel i g l hj hlen
    cases fuel with
    | zero => omega
    | succ f =>
      rw [indicatorsGo_succ data f i g l (by omega)]
      simp only [List.getElem?_cons_succ]
      have := ih f (i + 1) (rsiAtIndex data i g l).2.1 (rsiAtIndex data i g l).2.2
        (by omega) (by omega)
      rw [this]
      congr 2
      omega

lemma indicatorsGo_getElem?_rsi50 (data : List PricePoint) :
    ∀ j fuel i g l, j < fuel → i + j < data.length → 1 ≤ i + j → i + j ≤ 13 →
      ((indicatorsGo data fuel i g l)[j]?).map (fun pt => pt.rsi) = some 50 := by
  intro j
  induction j with
  | zero =>
    intro fuel i g l hj hlen h1 h13
    cases fuel with
    | zero => omega
    | succ f =>
      rw [indicatorsGo_succ data f i g l (by omega)]
      have h0 : i ≠ 0 := by omega
      have h14le : i ≤ 14 := by omega
      have h14ne : i ≠ 14 := by omega
      simp [rsiAtIndex, h0, h14le, h14ne]
  | succ j ih =>
    intro fuel i g l hj hlen h1 h13
    cases fuel with
    | zero => omega
    | succ f =>
      rw [indicatorsGo_succ data f i g l (by omega)]
      simp only [List.getElem?_cons_succ]
      have := ih f (i + 1) (rsiAtIndex data i g l).2.1 (rsiAtIndex data i g l).2.2
        (by omega) (by omega) (by omega) (by omega)
      rw [this]

lemma indicatorsGo_getElem?_rsi_roll (data : List PricePoint) :
    ∀ j fuel i g l, j < fuel → i + j < data.length → 14 < i + j →
      ((indicatorsGo data fuel i g l)[j]?).map (fun pt => pt.rsi)
        = some (rollingRsi data (i + j)) := by
  intro j
  induction j with
  | zero =>
    intro fuel i g l hj hlen h14
    cases fuel with
    | zero => omega
    | succ f =>
      rw [indicatorsGo_succ data f i g l (by omega)]
      have h0 : i ≠ 0 := by omega
      have h14le : ¬ i ≤ 14 := by omega
      simp [rsiAtIndex, h0, h14le]
  | succ j ih =>
    intro fuel i g l hj hlen h14
    cases fuel with
    | zero => omega
    | succ f =>
      rw [indicatorsGo_succ data f i g l (by omega)]
      simp only [List.getElem?_cons_succ]
      have := ih f (i + 1) (rsiAtIndex data i g l).2.1 (rsiAtIndex data i g l).2.2
        (by omega) (by omega) (by omega)
      rw [this]
      congr 2
      omega

lemma rsiDivisor_pos (x : ℚ) (hx : 0 ≤ x) : 0 < rsiDivisor x := by
  unfold rsiDivisor
  split_ifs with h
  · norm_num
  · exact lt_of_le_of_ne hx (Ne.symm h)

lemma rsiFromSums_mem (g l : ℚ) (hg : 0 ≤ g) (hl : 0 ≤ l) :
    0 ≤ rsiFromSums g l ∧ rsiFromSums g l ≤ 100 := by
  unfold rsiFromSums
  have hd : 0 < rsiDivisor (l / 14) := rsiDivisor_pos _ (by positivity)
  have hr : 0 ≤ g / 14 / rsiDivisor (l / 14) := div_nonneg (by positivity) hd.le
  have h1 : (0:ℚ) < 1 + g / 14 / rsiDivisor (l / 14) := by linarith
  have h2 : 0 ≤ 100 / (1 + g / 14 / rsiDivisor (l / 14)) := by positivity
  have h3 : 100 / (1 + g / 14 / rsiDivisor (l / 14)) ≤ 100 := by
    rw [div_le_iff₀ h1]
    nlinarith
  constructor <;> linarith

lemma gainLossFold_nonneg :
    ∀ (ps : List (PricePoint × PricePoint)) (gl : ℚ × ℚ), 0 ≤ gl.1 → 0 ≤ gl.2 →
      0 ≤ (ps.foldl
        (fun gl pq =>
          let d := pq.2.price - pq.1.price
          if 0 < d then (gl.1 + d, gl.2) else (gl.1, gl.2 - d)) gl).1 ∧
      0 ≤ (ps.foldl
        (fun gl pq =>
          let d := pq.2.price - pq.1.price
          if 0 < d then (gl.1 + d, gl.2) else (gl.1, gl.2 - d)) gl).2 := by
  intro ps
  induction ps with
  | nil => intro gl hg hl; exact ⟨hg, hl⟩
  | cons p ps ih =>
    intro gl hg hl
    simp only [List.foldl_cons]
    apply ih
    · dsimp only
      split_ifs with hd
      · simp only
        linarith
      · exact hg
    · dsimp only
      split_ifs with hd
      · exact hl
      · simp only
        push_neg at hd
        linarith

lemma rollGainLoss_nonneg (data : List PricePoint) (i : ℕ) :
    0 ≤ (rollGainLoss data i).1 ∧ 0 ≤ (rollGainLoss data i).2 := by
  unfold rollGainLoss
  exact gainLossFold_nonneg _ (0, 0) le_rfl le_rfl

lemma rollingRsi_mem (data : List PricePoint) (i : ℕ) :
    0 ≤ rollingRsi data i ∧ rollingRsi data i ≤ 100 := by
  unfold rollingRsi
  exact rsiFromSums_mem _ _ (rollGainLoss_nonneg data i).1 (rollGainLoss_nonneg data i).2

lemma bootGain_nonneg (g c : ℚ) (hg : 0 ≤ g) : 0 ≤ bootGain g c := by
  unfold bootGain
  split_ifs with h
  · linarith
  · exact hg

lemma bootLoss_nonneg (l c : ℚ) (hl : 0 ≤ l) : 0 ≤ bootLoss l c := by
  unfold bootLoss
  split_ifs with h
  · exact hl
  · push_neg at h
    linarith

lemma rsiAtIndex_fst_mem (data : List PricePoint) (i : ℕ) (g l : ℚ)
    (hg : 0 ≤ g) (hl : 0 ≤ l) :
    0 ≤ (rsiAtIndex data i g l).1 ∧ (rsiAtIndex data i g l).1 ≤ 100 := by
  unfold rsiAtIndex
  dsimp only
  split_ifs with h0 h14 h14e
  · norm_num
  · exact rsiFromSums_mem _ _ (bootGain_nonneg _ _ hg) (bootLoss_nonneg _ _ hl)
  · norm_num
  · exact rollingRsi_mem data i

lemma rsiAtIndex_state_nonneg (data : List PricePoint) (i : ℕ) (g l : ℚ)
    (hg : 0 ≤ g) (hl : 0 ≤ l) :
    0 ≤ (rsiAtIndex data i g l).2.1 ∧ 0 ≤ (rsiAtIndex data i g l).2.2 := by
  unfold rsiAtIndex
  dsimp only
  split_ifs with h0 h14 h14e
  · exact ⟨hg, hl⟩
  · exact ⟨bootGain_nonneg _ _ hg, bootLoss_nonneg _ _ hl⟩
  · exact ⟨bootGain_nonneg _ _ hg, bootLoss_nonneg _ _ hl⟩
  · exact ⟨hg, hl⟩

lemma indicatorsGo_rsi_mem (data : List PricePoint) :
    ∀ fuel i g l, 0 ≤ g → 0 ≤ l → ∀ pt ∈ indicatorsGo data fuel i g l,
      0 ≤ pt.rsi ∧ pt.rsi ≤ 100 := by
  intro fuel
  induction fuel with
  | zero => intro i g l _ _ pt hpt; simp [indicatorsGo] at hpt
  | succ f ih =>
    intro i g l hg hl pt hpt
    by_cases hi : i < data.length
    · rw [indicatorsGo_succ data f i g l hi] at hpt
      rcases List.mem_cons.mp hpt with h | h
      · subst h
        exact rsiAtIndex_fst_mem data i g l hg hl
      · exact ih (i + 1) _ _ (rsiAtIndex_state_nonneg data i g l hg hl).1
          (rsiAtIndex_state_nonneg data i g l hg hl).2 pt h
    · rw [indicatorsGo_stop data f i g l hi] at hpt
      simp at hpt

lemma calculateIndicators_length (data : List PricePoint) :
    (calculateIndicators data).length = data.length - (data.length - 200) := by
  unfold calculateIndicators
  rw [List.length_drop, dataWithIndicators_length]

/- ## Claim theorems: indicator engine -/

/-- C5: every RSI value produced by the indicator engine lies in the
interval [0,100] — the index-0 default, the bootstrap value at index 14 and
every rolling-window value, for any input price series. -/
theorem rsi_in_range : ∀ data : List PricePoint, ∀ pt ∈ calculateIndicators data,
    0 ≤ pt.rsi ∧ pt.rsi ≤ 100 := by
  intro data pt hpt
  unfold calculateIndicators at hpt
  have h2 := List.mem_of_mem_drop hpt
  unfold dataWithIndicators at h2
  exact indicatorsGo_rsi_mem data data.length 0 0 0 le_rfl le_rfl pt h2

/-- C5 (witness): the bound realized on the single point of a one-element
series. -/
theorem rsi_in_range_witness :
    0 ≤ ((calculateIndicators [(⟨0, 3, 0⟩ : PricePoint)]).get
        ⟨0, by simp [calculateIndicators_length]⟩).rsi ∧
      ((calculateIndicators [(⟨0, 3, 0⟩ : PricePoint)]).get
        ⟨0, by simp [calculateIndicators_length]⟩).rsi ≤ 100 :=
  rsi_in_range _ _ (List.get_mem _ _ _)

lemma gainLossFold_const (p : PricePoint) :
    ∀ (m : ℕ) (gl : ℚ × ℚ),
      (List.replicate m (p, p)).foldl
        (fun gl pq =>
          let d := pq.2.price - pq.1.price
          if 0 < d then (gl.1 + d, gl.2) else (gl.1, gl.2 - d)) gl = gl := by
  intro m
  induction m with
  | zero => intro gl; rfl
  | succ k ih =>
    intro gl
    rw [List.replicate_succ, List.foldl_cons]
    simp only [sub_self, lt_self_iff_false, if_false, sub_zero, Prod.mk.eta]
    exact ih gl

lemma rollGainLoss_replicate (n i : ℕ) (p : PricePoint) :
    rollGainLoss (List.replicate n p) i = (0, 0) := by
  unfold rollGainLoss jsSlice
  simp only [List.drop_replicate, List.take_replicate, List.tail_replicate,
    List.zip_replicate]
  exact gainLossFold_const p _ (0, 0)

lemma rsiFromSums_zero : rsiFromSums 0 0 = 0 := by
  unfold rsiFromSums rsiDivisor
  norm_num

lemma rollingRsi_replicate (n i : ℕ) (p : PricePoint) :
    rollingRsi (List.replicate n p) i = 0 := by
  unfold rollingRsi
  rw [rollGainLoss_replicate]
  exact rsiFromSums_zero

/-- C10 (counterexample): on a constant 215-point series the value at
output index 1 of `calculateIndicators` is the rolling RSI of annotated
index 16 (the output is the last 200 of 215 annotated points), which is 0
for a constant series — not the bootstrap default 50 the claim asserts for
indices 1 through 13 of the returned list. -/
theorem rsi_bootstrap_shifted_by_truncation :
    ((calculateIndicators (List.replicate 215 (⟨0, 7, 0⟩ : PricePoint)))[1]?).map
        (fun pt => pt.rsi) = some 0 := by
  unfold calculateIndicators
  have hd : (dataWithIndicators (List.replicate 215 (⟨0, 7, 0⟩ : PricePoint))).length - 200
      = 15 := by
    rw [dataWithIndicators_length, List.length_replicate]
  rw [hd, List.getElem?_drop]
  unfold dataWithIndicators
  have h16 := indicatorsGo_getElem?_rsi_roll (List.replicate 215 (⟨0, 7, 0⟩ : PricePoint))
    16 (List.replicate 215 (⟨0, 7, 0⟩ : PricePoint)).length 0 0 0
    (by rw [List.length_replicate]; omega) (by rw [List.length_replicate]; omega)
    (by omega)
  rw [h16, rollingRsi_replicate]

/-- C10 (amended): in the annotated (pre-truncation) indicator sequence,
the RSI at every index 1 through 13 is the 50 default — no bootstrap value
is back-filled; the same holds for the indices of the returned list
whenever the input has at most 200 points, so that the final slice does
not shift indices. -/
theorem rsi_bootstrap_default : ∀ data : List PricePoint, 15 ≤ data.length →
    (∀ i, 1 ≤ i → i ≤ 13 →
      ((dataWithIndicators data)[i]?).map (fun pt => pt.rsi) = some 50) ∧
    (data.length ≤ 200 → ∀ i, 1 ≤ i → i ≤ 13 →
      ((calculateIndicators data)[i]?).map (fun pt => pt.rsi) = some 50) := by
  intro data hlen
  have hfirst : ∀ i, 1 ≤ i → i ≤ 13 →
      ((dataWithIndicators data)[i]?).map (fun pt => pt.rsi) = some 50 := by
    intro i h1 h13
    unfold dataWithIndicators
    exact indicatorsGo_getElem?_rsi50 data i data.length 0 0 0
      (by omega) (by omega) (by omega) (by omega)
  refine ⟨hfirst, ?_⟩
  intro h200 i h1 h13
  unfold calculateIndicators
  have hd : (dataWithIndicators data).length - 200 = 0 := by
    rw [dataWithIndicators_length]
    omega
  rw [hd, List.drop_zero]
  exact hfirst i h1 h13

/-- C10 (witness): the bootstrap default realized at index 5 of a constant
15-point series, both pre-truncation and in the returned list. -/
theorem rsi_bootstrap_default_witness :
    ((dataWithIndicators (List.replicate 15 (⟨0, 7, 0⟩ : PricePoint)))[5]?).map
        (fun pt => pt.rsi) = some 50 ∧
    ((calculateIndicators (List.replicate 15 (⟨0, 7, 0⟩ : PricePoint)))[5]?).map
        (fun pt => pt.rsi) = some 50 := by
  have h := rsi_bootstrap_default (List.replicate 15 (⟨0, 7, 0⟩ : PricePoint))
    (by rw [List.length_replicate])
  exact ⟨h.1 5 (by omega) (by omega),
    h.2 (by rw [List.length_replicate]; omega) 5 (by omega) (by omega)⟩

lemma priceAt_replicate (n j : ℕ) (p : PricePoint) (h : j < n) :
    priceAt (List.replicate n p) j = p.price := by
  unfold priceAt
  rw [List.getD_eq_getElem?_getD, List.getElem?_replicate, if_pos h]
  rfl

lemma bollMean_replicate21 (q : ℚ) :
    bollMean (List.replicate 21 (⟨0, q, 0⟩ : PricePoint)) 20 = q := by
  unfold bollMean jsSlice
  simp only [List.drop_replicate, List.take_replicate, List.map_replicate,
    List.sum_replicate, nsmul_eq_mul]
  norm_num

/-- C1 (counterexample): on a 20-point series (so that index 19 is the
20th point, with a full 20-price trailing window available) the point at
index 19 has absent Bollinger bands and the default z-score 0 — the code
computes Bollinger fields only from index 20 on, not from index 19 as
claimed. -/
theorem bollinger_absent_at_19 :
    ((calculateIndicators (List.replicate 20 (⟨0, 7, 0⟩ : PricePoint)))[19]?).map
        (fun pt => (pt.bbUpper, pt.bbLower, pt.zScore)) = some (none, none, 0) := by
  unfold calculateIndicators
  have hd : (dataWithIndicators (List.replicate 20 (⟨0, 7, 0⟩ : PricePoint))).length - 200
      = 0 := by
    rw [dataWithIndicators_length, List.length_replicate]
  rw [hd, List.drop_zero]
  unfold dataWithIndicators
  have hbb := indicatorsGo_getElem?_bb (List.replicate 20 (⟨0, 7, 0⟩ : PricePoint))
    19 (List.replicate 20 (⟨0, 7, 0⟩ : PricePoint)).length 0 0 0
    (by rw [List.length_replicate]; omega) (by rw [List.length_replicate]; omega)
  rw [Nat.zero_add] at hbb
  rw [hbb]
  unfold bollFields
  rw [if_neg (by omega)]

/-- C1 (amended): in the annotated indicator sequence the Bollinger bands
and z-score are present exactly from index 20 on — there with the
mean ± 2·stddev and guarded z-score formulas over the trailing 20 prices —
while at every index below 20 (including index 19) the bands are absent
and the z-score is 0; for 21 identical prices the z-score at index 20 is 0
(zero numerator over the guarded divisor). -/
theorem bollinger_boundary : ∀ (data : List PricePoint) (i : ℕ), i < data.length →
    (20 ≤ i → ((dataWithIndicators data)[i]?).map
        (fun pt => (pt.bbUpper, pt.bbLower, pt.zScore)) =
      some (some ((bollMean data i : ℝ) + 2 * bollStdDev data i),
            some ((bollMean data i : ℝ) - 2 * bollStdDev data i),
            ((priceAt data i - bollMean data i : ℚ) : ℝ) /
              stdDevDivisor (bollStdDev data i))) ∧
    (i < 20 → ((dataWithIndicators data)[i]?).map
        (fun pt => (pt.bbUpper, pt.bbLower, pt.zScore)) = some (none, none, 0)) ∧
    (∀ q : ℚ, ((dataWithIndicators (List.replicate 21 (⟨0, q, 0⟩ : PricePoint)))[20]?).map
        (fun pt => pt.zScore) = some 0) := by
  intro data i hi
  have hbb : ((dataWithIndicators data)[i]?).map
      (fun pt => (pt.bbUpper, pt.bbLower, pt.zScore)) = some (bollFields data i) := by
    unfold dataWithIndicators
    have h := indicatorsGo_getElem?_bb data i data.length 0 0 0 (by omega) (by omega)
    rwa [Nat.zero_add] at h
  refine ⟨?_, ?_, ?_⟩
  · intro h20
    rw [hbb]
    unfold bollFields
    rw [if_pos h20]
  · intro h20
    rw [hbb]
    unfold bollFields
    rw [if_neg (by omega)]
  · intro q
    have hbb21 : ((dataWithIndicators (List.replicate 21 (⟨0, q, 0⟩ : PricePoint)))[20]?).map
        (fun pt => (pt.bbUpper, pt.bbLower, pt.zScore))
        = some (bollFields (List.replicate 21 (⟨0, q, 0⟩ : PricePoint)) 20) := by
      unfold dataWithIndicators
      have h := indicatorsGo_getElem?_bb (List.replicate 21 (⟨0, q, 0⟩ : PricePoint))
        20 (List.replicate 21 (⟨0, q, 0⟩ : PricePoint)).length 0 0 0
        (by rw [List.length_replicate]; omega) (by rw [List.length_replicate]; omega)
      rwa [Nat.zero_add] at h
    obtain ⟨pt, hpt, heq⟩ := Option.map_eq_some'.mp hbb21
    rw [hpt]
    simp only [Option.map_some']
    congr 1
    have hz := congrArg (fun t : Option ℝ × Option ℝ × ℝ => t.2.2) heq
    simp only at hz
    rw [hz]
    unfold bollFields
    rw [if_pos (by omega)]
    rw [bollMean_replicate21, priceAt_replicate 21 20 _ (by omega)]
    simp

/-- C1 (witness): the 21-identical-prices z-score instance realized with
price 7. -/
theorem bollinger_boundary_witness :
    ((dataWithIndicators (List.replicate 21 (⟨0, 7, 0⟩ : PricePoint)))[20]?).map
        (fun pt => pt.zScore) = some 0 :=
  (bollinger_boundary (List.replicate 21 (⟨0, 7, 0⟩ : PricePoint)) 20
    (by rw [List.length_replicate]; omega)).2.2 7
